import Mathlib

/-!
Verification of the doc-list-builder library.

This file is a shallow embedding of the three modules of the library —
`opsladder.py` (layered option resolution), `assemblable.py` (the scoped
list assembler) and `llatex.py` (the LaTeX document-part specializations) —
together with theorems settling the specified properties of the code.

Literal braces inside string literals are written with the hex escapes
`\x7b` and `\x7d`.
-/

/-- Lookup in a chain of mappings, as `collections.ChainMap.__getitem__`
performs it: the layers are consulted in order and the first layer that
defines the key wins.  A mapping layer is modelled as an association list in
insertion order. -/
def chainLookup {V : Type} : List (List (String × V)) → String → Option V
  | [], _ => none
  | layer :: rest, k =>
    match layer.lookup k with
    | some v => some v
    | none => chainLookup rest k

/-- Reading a key from a settings chain: a key defined by no layer raises
`KeyError` at read time. -/
def chainGet {V : Type} (chain : List (List (String × V))) (k : String) :
    Except String V :=
  match chainLookup chain k with
  | some v => Except.ok v
  | none => Except.error ("KeyError: " ++ k)

/-- The class-level settings chain built by the metaclass method
`OptionsLadder.__new__`: it walks the mro from the most general class to the
most derived one (`for c in reversed(n_cls.mro())`) and pushes the
`_defaults` mapping of each participating class in front of the chain built
so far, so the finished chain is ordered most derived first.  The argument
lists the classes from most general to most derived; `some layer` stands for
a class for which `hasattr(c, "_defaults")` holds (the mapping `getattr`
returns, which in this repository every participating class declares
itself), `none` for a class that contributes no layer. -/
def optionsLadderNew {V : Type} (classes : List (Option (List (String × V)))) :
    List (List (String × V)) :=
  classes.foldl
    (fun d c =>
      match c with
      | some layer => layer :: d
      | none => d)
    []

/-- `options_filter` from `opsladder.py`: split a keyword-argument mapping
into the entries whose keys occur in the annotations of the target schema
and those whose keys do not. -/
def options_filter {V : Type} (x : List (String × V)) (anns : List String) :
    List (String × V) × List (String × V) :=
  (x.filter (fun kv => anns.contains kv.1),
   x.filter (fun kv => !(anns.contains kv.1)))

/-- State of an `Assemblable` context manager from `assemblable.py`.
`pipeline` is the resolved `settings["pipeline"]`, `data` the accumulating
list, `_result` and `_parent` the fields of the same names.  The source
mutates the parent `AssembleList` in place; here `_parent` carries the
current contents of that list and `__exit__` returns the extended contents.
`closeCount` counts the executed `__exit__` calls of the scope, so that
running the exit action exactly once is visible in the state. -/
structure Assemblable where
  pipeline : List (List String → List String)
  data : List String
  _result : Option (List String)
  _parent : Option (List String)
  closeCount : Nat

/-- `Assemblable.run_pipeline`: fold the configured pipeline of functions
over the list, each stage consuming the previous stage's output. -/
def run_pipeline (pipeline : List (List String → List String))
    (data : List String) : List String :=
  pipeline.foldl (fun d f => f d) data

/-- `Assemblable.__exit__`: run the pipeline over the current contents,
store the outcome in `_result`, extend the parent accumulating list with it
when a parent was supplied, and return `None` (modelled as `none`), so a
propagating exception is never suppressed. -/
def exitContext (s : Assemblable) : Assemblable × Option Bool :=
  let r := run_pipeline s.pipeline s.data
  ({ s with
      _result := some r
      _parent := s._parent.map (fun p => p ++ r)
      closeCount := s.closeCount + 1 },
   none)

/-- Outcome of the body of a `with` block: normal fall-through or a
propagating exception. -/
inductive PyOutcome where
  | normal : PyOutcome
  | raised : String → PyOutcome
  deriving DecidableEq

/-- The `with` statement protocol as Python runs it for an `Assemblable`:
`__enter__` hands the body the accumulating list, the body yields the list's
final contents together with its outcome, `__exit__` runs on every exit
path, and a raised exception is suppressed only if `__exit__` returned a
truthy value (it returns `None`, which is falsy). -/
def withContext (s : Assemblable)
    (body : List String → List String × PyOutcome) :
    Assemblable × PyOutcome :=
  let bres := body s.data
  let eres := exitContext { s with data := bres.1 }
  match bres.2 with
  | PyOutcome.normal => (eres.1, PyOutcome.normal)
  | PyOutcome.raised m =>
    if eres.2 = some true then (eres.1, PyOutcome.normal)
    else (eres.1, PyOutcome.raised m)

/-- The `Assemblable.result` property: raises
`ValueError("Assemblable context manager has not been closed.")` while
`_result` is still `None`, and returns the pipeline's final output after the
scope has closed. -/
def Assemblable.result (s : Assemblable) : Except String (List String) :=
  match s._result with
  | none => Except.error ("Assemblable context manager has not been closed.")
  | some r => Except.ok r

/-- The configuration a `DocumentPart` resolves for itself: symbolic name,
prolog, epilog and join delimiter (`llatex.py`). -/
structure DPSettings where
  name : Option String
  prolog : String
  epilog : String
  delimiter : String
  deriving DecidableEq

/-- `DocumentPart.p_join`: join the list into a single item with the
configured delimiter (`[self.settings["delimiter"].join(data)]`). -/
def p_join (s : DPSettings) (data : List String) : List String :=
  [String.intercalate s.delimiter data]

/-- `DocumentPart.p_wrap`: concatenate prolog, items and epilog into a
single item (`["".join([self.settings["prolog"]] + data + [self.settings["epilog"]])]`). -/
def p_wrap (s : DPSettings) (data : List String) : List String :=
  [String.join ([s.prolog] ++ data ++ [s.epilog])]

/-- The fixed two-stage pipeline `[self.p_join, self.p_wrap]` that
`DocumentPart.__init__` installs. -/
def dpPipeline (s : DPSettings) : List (List String → List String) :=
  [p_join s, p_wrap s]

/-- ASCII letter test, the regex character class `[a-zA-Z]`. -/
def isAsciiLetter (c : Char) : Bool :=
  (97 ≤ c.toNat && c.toNat ≤ 122) || (65 ≤ c.toNat && c.toNat ≤ 90)

/-- Characters the regex `[a-zA-Z@*:]` of `validate_latex_control_word`
allows after the first one. -/
def isControlWordChar (c : Char) : Bool :=
  isAsciiLetter c || c == Char.ofNat 64 || c == Char.ofNat 42 || c == Char.ofNat 58

/-- `re.fullmatch(r"[a-zA-Z][a-zA-Z@*:]*", name)` as a Boolean predicate. -/
def controlWordOk (name : String) : Bool :=
  match name.data with
  | [] => false
  | c :: rest => isAsciiLetter c && rest.all isControlWordChar

/-- `validate_latex_control_word` from `llatex.py`: empty names and names
failing the grammar raise a `ValueError`. -/
def validate_latex_control_word (name : String) : Except String Unit :=
  if name = "" then Except.error ("Command name cannot be empty")
  else if controlWordOk name then Except.ok ()
  else Except.error ("Invalid command name: " ++ name)

/-- Characters the regex `[a-zA-Z0-9@*]` of `validate_environment_name`
allows after the first one. -/
def isEnvNameChar (c : Char) : Bool :=
  isAsciiLetter c || (48 ≤ c.toNat && c.toNat ≤ 57)
    || c == Char.ofNat 64 || c == Char.ofNat 42

/-- `re.fullmatch(r"[a-zA-Z][a-zA-Z0-9@*]*", name)` as a Boolean predicate. -/
def envNameOk (name : String) : Bool :=
  match name.data with
  | [] => false
  | c :: rest => isAsciiLetter c && rest.all isEnvNameChar

/-- `validate_environment_name` from `llatex.py`. -/
def validate_environment_name (name : String) : Except String Unit :=
  if name = "" then Except.error ("Environment name cannot be empty")
  else if envNameOk name then Except.ok ()
  else Except.error ("Invalid environment name: " ++ name)

/-- The optional argument-count segment of a `NewCommand` prolog:
`f"[{nargs}]" if nargs > 0 else ""`. -/
def nargsMarker (nargs : Int) : String :=
  if nargs > 0 then "[" ++ toString nargs ++ "]" else ""

/-- The optional default-value segment of a `NewCommand` prolog:
`f"[{default}]" if default is not None else ""`. -/
def defaultMarker : Option String → String
  | some d => "[" ++ d ++ "]"
  | none => ""

/-- The prolog computed by `NewCommand.validate_and_update`:
`f"\newcommand{\NAME}"` followed by the optional `[nargs]` and `[default]`
segments and the opening `{%` plus newline. -/
def newCommandProlog (name : String) (nargs : Int) (default : Option String) :
    String :=
  "\\newcommand\x7b\\" ++ name ++ "\x7d" ++ nargsMarker nargs
    ++ defaultMarker default ++ "\x7b%\n"

/-- `NewCommand.__init__` together with `NewCommand.validate_and_update`:
validate the command name and the argument count, then resolve the settings
this construction computes for the instance (prolog from the name, the class
defaults `epilog = "\n}%"` and `delimiter = "\n"`).  A validation failure is
a `ValueError` raised before any scope state exists. -/
def newCommandInit (cmd_name : String) (nargs : Int) (default : Option String) :
    Except String DPSettings :=
  match validate_latex_control_word cmd_name with
  | Except.error e => Except.error e
  | Except.ok _ =>
    if nargs < 0 || nargs > 9 then
      Except.error ("nargs must be between 0 and 9")
    else
      Except.ok
        { name := some cmd_name
          prolog := newCommandProlog cmd_name nargs default
          epilog := "\n\x7d%"
          delimiter := "\n" }

/-- Python truthiness of an optional string: `None` and `""` are falsy,
every other string is truthy. -/
def pyTruthyStr : Option String → Bool
  | none => false
  | some s => !(s == "")

/-- The optional options segment of an `Environment` prolog:
`f"[{ops}]" if ops else ""` — the source guards with truthiness, not with
presence, so an empty string behaves like `None`. -/
def opsSegment (ops : Option String) : String :=
  if pyTruthyStr ops then "[" ++ ops.getD "" ++ "]" else ""

/-- The optional arguments segment of an `Environment` prolog:
`f"{{{args}}}" if args else ""`, guarded by truthiness as well. -/
def argsSegment (args : Option String) : String :=
  if pyTruthyStr args then "\x7b" ++ args.getD "" ++ "\x7d" else ""

/-- The prolog computed by `Environment.validate_and_update`. -/
def envProlog (name : String) (ops args : Option String) : String :=
  "\\begin\x7b" ++ name ++ "\x7d" ++ opsSegment ops ++ argsSegment args ++ "%\n"

/-- The epilog computed by `Environment.validate_and_update`:
`f"\n\end{{{name}}}%"`. -/
def envEpilog (name : String) : String :=
  "\n\\end\x7b" ++ name ++ "\x7d%"

/-- `Environment.__init__` together with `Environment.validate_and_update`:
validate the environment name, then resolve the settings this construction
computes (prolog and epilog from the name, delimiter `"\n"`). -/
def environmentInit (env_name : String) (ops args : Option String) :
    Except String DPSettings :=
  match validate_environment_name env_name with
  | Except.error e => Except.error e
  | Except.ok _ =>
    Except.ok
      { name := some env_name
        prolog := envProlog env_name ops args
        epilog := envEpilog env_name
        delimiter := "\n" }

/-- The mutable `prolog` entry of the class-level mapping
`NewCommand._defaults`.  `NewCommand.validate_and_update` assigns
`self._defaults["prolog"]`, which writes into this one dictionary shared by
every instance of the class: the dictionary is a lower layer of each
instance's settings `ChainMap`. -/
structure NewCommandClassState where
  ncProlog : Option String
  deriving DecidableEq

/-- Per-instance data of a constructed `NewCommand`: the value the
instance-level layers of its settings chain hold for the key `prolog`
(`none` unless the caller passed `prolog=` explicitly, which places it in a
layer above the class defaults), and the command name. -/
structure NewCommandInstance where
  instProlog : Option String
  cmdName : String
  deriving DecidableEq

/-- `NewCommand.__init__` including its write to the shared class mapping:
after validating the name and `nargs`, `validate_and_update` assigns
`self._defaults["prolog"]`, mutating `NewCommand._defaults` in place and
thereby updating a chain layer of every already-constructed instance. -/
def newCommandConstruct (_w : NewCommandClassState) (cmd_name : String)
    (nargs : Int) (default : Option String) :
    Except String (NewCommandClassState × NewCommandInstance) :=
  match validate_latex_control_word cmd_name with
  | Except.error e => Except.error e
  | Except.ok _ =>
    if nargs < 0 || nargs > 9 then
      Except.error ("nargs must be between 0 and 9")
    else
      Except.ok
        ({ ncProlog := some (newCommandProlog cmd_name nargs default) },
         { instProlog := none, cmdName := cmd_name })

/-- The prolog a `NewCommand` instance resolves when `p_wrap` reads
`self.settings["prolog"]` at close time: the instance-level layers are
consulted first, then the shared `NewCommand._defaults` layer in its current
state. -/
def observedProlog (w : NewCommandClassState) (i : NewCommandInstance) :
    Option String :=
  match i.instProlog with
  | some p => some p
  | none => w.ncProlog

/-- The settings the `Environment("document")` construction of the example in
`llatex.py` resolves. -/
def documentSettings : DPSettings :=
  { name := some ("document"), prolog := envProlog ("document") none none,
    epilog := envEpilog ("document"), delimiter := "\n" }

/-- The settings the `NewCommand("greet", nargs=1)` construction resolves. -/
def greetSettings : DPSettings :=
  { name := some ("greet"), prolog := newCommandProlog ("greet") 1 none,
    epilog := "\n\x7d%", delimiter := "\n" }

/-- The body of the inner `with NewCommand(...)` block of the end-to-end
scenario: append the single item and fall through normally. -/
def greetBody (cmd : List String) : List String × PyOutcome :=
  (cmd ++ ["\\textbf\x7bHello, #1!\x7d"], PyOutcome.normal)

/-- The body of the outer `with Environment(...)` block: run the inner
command scope against the document scope's accumulating list (whose updated
contents the inner scope's exit hands back), then append the usage line. -/
def documentBody (items : List String) : List String × PyOutcome :=
  let greetScope : Assemblable :=
    { pipeline := dpPipeline greetSettings, data := [], _result := none,
      _parent := some items, closeCount := 0 }
  let r := withContext greetScope greetBody
  let items2 := (r.1)._parent.getD items
  (items2 ++ ["\\greet\x7bWorld\x7d"], PyOutcome.normal)

/-- The document scope after the whole end-to-end scenario has run. -/
def scenarioFinal : Assemblable :=
  (withContext
    { pipeline := dpPipeline documentSettings, data := [], _result := none,
      _parent := none, closeCount := 0 }
    documentBody).1

/-- Claim C1: the end-to-end scenario — an `Environment` named `document`
containing a `NewCommand` named `greet` with one argument and the body
`\textbf{Hello, #1!}`, followed by the usage `\greet{World}` — closes to the
single expected document string, and both constructions resolve exactly the
settings used. -/
theorem end_to_end_document_scenario :
    environmentInit ("document") none none = Except.ok documentSettings
  ∧ newCommandInit ("greet") 1 none = Except.ok greetSettings
  ∧ scenarioFinal._result
      = some ["\\begin\x7bdocument\x7d%\n\\newcommand\x7b\\greet\x7d[1]\x7b%\n\\textbf\x7bHello, #1!\x7d\n\x7d%\n\\greet\x7bWorld\x7d\n\\end\x7bdocument\x7d%"] :=
  ⟨rfl, rfl, rfl⟩

/-- Claim C2 is refuted by the code: `NewCommand.validate_and_update` writes
the freshly computed prolog into the class-level mapping
`NewCommand._defaults`, a layer shared by every instance's settings chain,
so constructing a second command overwrites the prolog a still-open first
command resolves at close time.  Concretely: construct `alpha`, then
construct `beta`; `alpha` now observes `beta`'s prolog, not the one resolved
at its own construction. -/
theorem shared_defaults_clobber_open_scope_prolog :
    ∃ (w1 : NewCommandClassState) (a : NewCommandInstance)
      (w2 : NewCommandClassState) (b : NewCommandInstance),
      newCommandConstruct { ncProlog := none } ("alpha") 0 none
        = Except.ok (w1, a)
    ∧ newCommandConstruct w1 ("beta") 0 none = Except.ok (w2, b)
    ∧ observedProlog w1 a = some (newCommandProlog ("alpha") 0 none)
    ∧ observedProlog w2 a = some (newCommandProlog ("beta") 0 none)
    ∧ newCommandProlog ("beta") 0 none ≠ newCommandProlog ("alpha") 0 none := by
  refine ⟨_, _, _, _, rfl, rfl, rfl, rfl, ?_⟩
  decide

/-- Claim C7: with an empty pipeline the fold is the identity, and a scope
configured with the empty pipeline closes with its accumulated items as its
result, element for element. -/
theorem empty_pipeline_identity (items : List String)
    (pacc : Option (List String)) :
    run_pipeline [] items = items
  ∧ ((withContext
        { pipeline := [], data := [], _result := none, _parent := pacc,
          closeCount := 0 }
        (fun d => (d ++ items, PyOutcome.normal))).1)._result = some items := by
  constructor
  · rfl
  · simp [withContext, exitContext, run_pipeline]

/-- Claim C3: whatever way control leaves the scope body — normal
fall-through or a propagating exception — the exit of a scope with a parent
runs the configured pipeline over the contents present at that moment,
appends the result to the parent's accumulating sequence, does not suppress
the exception (`__exit__` returns `None`), and performs this exit action
exactly once. -/
theorem exit_finalize_and_propagate (s : Assemblable) (p : List String)
    (body : List String → List String × PyOutcome)
    (hp : s._parent = some p) (hc : s.closeCount = 0) :
    ((withContext s body).1)._result
      = some (run_pipeline s.pipeline (body s.data).1)
  ∧ ((withContext s body).1)._parent
      = some (p ++ run_pipeline s.pipeline (body s.data).1)
  ∧ (withContext s body).2 = (body s.data).2
  ∧ ((withContext s body).1).closeCount = 1 := by
  rcases hb : body s.data with ⟨d, out⟩
  cases out <;> simp [withContext, exitContext, hb, hp, hc]

/-- Scope used to instantiate the exit guarantee: empty pipeline, seeded
contents, a parent list holding one prior item, not yet closed. -/
def c3Scope : Assemblable :=
  { pipeline := [], data := ["seed"], _result := none,
    _parent := some ["kept"], closeCount := 0 }

/-- A body that appends one item and then lets an exception propagate. -/
def c3Body (d : List String) : List String × PyOutcome :=
  (d ++ ["item"], PyOutcome.raised ("boom"))

/-- Concrete instance of the exit guarantee: even though the body raises,
the scope finalizes once, its result and the parent extension are the
pipeline output, and the exception propagates. -/
theorem exit_finalize_and_propagate_example :
    ((withContext c3Scope c3Body).1)._result
      = some (run_pipeline [] (["seed", "item"]))
  ∧ ((withContext c3Scope c3Body).1)._parent
      = some (["kept"] ++ run_pipeline [] (["seed", "item"]))
  ∧ (withContext c3Scope c3Body).2 = PyOutcome.raised ("boom")
  ∧ ((withContext c3Scope c3Body).1).closeCount = 1 :=
  exit_finalize_and_propagate c3Scope ["kept"] c3Body rfl rfl

/-- Claim C4: reading `result` while the scope is still open raises the
`ValueError` in every case — never a sentinel or a partial value — and after
the scope closes it returns the pipeline's final output. -/
theorem result_access_semantics (s : Assemblable)
    (body : List String → List String × PyOutcome)
    (h : s._result = none) :
    s.result
      = Except.error ("Assemblable context manager has not been closed.")
  ∧ ((withContext s body).1).result
      = Except.ok (run_pipeline s.pipeline (body s.data).1) := by
  constructor
  · simp [Assemblable.result, h]
  · rcases hb : body s.data with ⟨d, out⟩
    cases out <;> simp [withContext, exitContext, Assemblable.result, hb]

/-- A fresh, still-open scope with the empty pipeline. -/
def c4Scope : Assemblable :=
  { pipeline := [], data := [], _result := none, _parent := none,
    closeCount := 0 }

/-- A body appending a single item and falling through. -/
def c4Body (d : List String) : List String × PyOutcome :=
  (d ++ ["x"], PyOutcome.normal)

/-- Concrete instance of the result-access contract: the open scope errors,
the closed one returns the output. -/
theorem result_access_semantics_example :
    c4Scope.result
      = Except.error ("Assemblable context manager has not been closed.")
  ∧ ((withContext c4Scope c4Body).1).result
      = Except.ok (run_pipeline [] (["x"])) :=
  result_access_semantics c4Scope c4Body rfl

/-- Claim C5: for every command name matching the grammar, `nargs=0` and
`default=None` yield exactly the prolog `\newcommand{\NAME}{%` plus newline
with no bracketed segment; `nargs=3` yields a prolog containing `[3]`; the
argument-count segment is nonempty exactly when `nargs` is positive and the
default segment exactly when a default was supplied. -/
theorem newCommand_prolog_markers (name : String)
    (_h : controlWordOk name = true) :
    newCommandProlog name 0 none = "\\newcommand\x7b\\" ++ name ++ "\x7d\x7b%\n"
  ∧ (∀ default : Option String, ∃ a b : String,
      newCommandProlog name 3 default = a ++ "[3]" ++ b)
  ∧ (∀ nargs : Int, nargsMarker nargs = "" ↔ nargs ≤ 0)
  ∧ (∀ default : Option String, defaultMarker default = "" ↔ default = none) := by
  refine ⟨?_, ?_, ?_, ?_⟩
  · have h0 : nargsMarker 0 = "" := rfl
    have h1 : defaultMarker none = "" := rfl
    rw [newCommandProlog, h0, h1, String.append_empty, String.append_empty,
      String.append_assoc]
    rfl
  · intro default
    refine ⟨"\\newcommand\x7b\\" ++ name ++ "\x7d",
      defaultMarker default ++ "\x7b%\n", ?_⟩
    simp only [newCommandProlog, String.append_assoc]
    rfl
  · intro nargs
    unfold nargsMarker
    by_cases hn : nargs > 0
    · rw [if_pos hn]
      constructor
      · intro he
        exfalso
        have hlen := congrArg String.length he
        rw [String.length_append, String.length_append] at hlen
        rw [show String.length ("[") = 1 from rfl,
          show String.length ("]") = 1 from rfl,
          show String.length ("") = 0 from rfl] at hlen
        omega
      · intro hle
        exact absurd hn (by omega)
    · rw [if_neg hn]
      simp
      omega
  · intro default
    cases default with
    | none => simp [defaultMarker]
    | some d =>
      simp [defaultMarker]
      intro he
      have hlen := congrArg String.length he
      rw [String.length_append, String.length_append] at hlen
      rw [show String.length ("[") = 1 from rfl,
        show String.length ("]") = 1 from rfl,
        show String.length ("") = 0 from rfl] at hlen
      omega

/-- Concrete instance of the prolog-shape property at the valid name
`greet`. -/
theorem newCommand_prolog_markers_example :
    controlWordOk ("greet") = true
  ∧ newCommandProlog ("greet") 0 none = "\\newcommand\x7b\\greet\x7d\x7b%\n" := by
  refine ⟨by decide, ?_⟩
  exact (newCommand_prolog_markers ("greet") (by decide)).1

/-- Claim C6: constructing a `NewCommand` succeeds exactly when the command
name matches the grammar `[a-zA-Z][a-zA-Z@*:]*` (empty names fail) and
`nargs` lies in the inclusive range 0..9, and constructing an `Environment`
succeeds exactly when the name matches `[a-zA-Z][a-zA-Z0-9@*]*`; every
failing case is a `ValueError` raised before any scope exists, so no
partially-initialized scope is observable. -/
theorem construction_validation_characterization
    (cmd_name env_name : String) (nargs : Int)
    (default ops args : Option String) :
    ((∃ cfg, newCommandInit cmd_name nargs default = Except.ok cfg)
      ↔ (controlWordOk cmd_name = true ∧ 0 ≤ nargs ∧ nargs ≤ 9))
  ∧ ((∃ cfg, environmentInit env_name ops args = Except.ok cfg)
      ↔ envNameOk env_name = true) := by
  constructor
  · by_cases h0 : cmd_name = ""
    · subst h0
      simp [newCommandInit, validate_latex_control_word,
        show controlWordOk ("") = false from rfl]
    · by_cases h1 : controlWordOk cmd_name = true
      · by_cases h2 : (nargs < 0 || nargs > 9) = true
        · simp [newCommandInit, validate_latex_control_word, h0, h1, h2]
          simp only [Bool.or_eq_true, decide_eq_true_eq] at h2
          omega
        · simp [newCommandInit, validate_latex_control_word, h0, h1, h2]
          simp only [Bool.or_eq_true, decide_eq_true_eq] at h2
          push_neg at h2
          omega
      · simp [newCommandInit, validate_latex_control_word, h0, h1]
  · by_cases h0 : env_name = ""
    · subst h0
      simp [environmentInit, validate_environment_name,
        show envNameOk ("") = false from rfl]
    · by_cases h1 : envNameOk env_name = true
      · simp [environmentInit, validate_environment_name, h0, h1]
      · simp [environmentInit, validate_environment_name, h0, h1]

/-- The chain lookup is the first-hit scan over the layers. -/
theorem chainLookup_eq_findSome {V : Type} (chain : List (List (String × V)))
    (k : String) :
    chainLookup chain k = chain.findSome? (fun layer => layer.lookup k) := by
  induction chain with
  | nil => rfl
  | cons layer rest ih =>
    rw [List.findSome?_cons]
    cases h : layer.lookup k <;> simp [chainLookup, h, ih]

/-- Unfolding of the metaclass fold with an arbitrary accumulator. -/
theorem optionsLadderNew_aux {V : Type}
    (classes : List (Option (List (String × V))))
    (acc : List (List (String × V))) :
    classes.foldl
      (fun d c =>
        match c with
        | some layer => layer :: d
        | none => d)
      acc
    = (classes.filterMap id).reverse ++ acc := by
  induction classes generalizing acc with
  | nil => simp
  | cons c cs ih =>
    cases c with
    | none => simp [List.foldl_cons, ih]
    | some layer => simp [List.foldl_cons, ih]

/-- The chain the metaclass builds is the participating layers in reverse
declaration order, i.e. most derived first. -/
theorem optionsLadderNew_eq {V : Type}
    (classes : List (Option (List (String × V)))) :
    optionsLadderNew classes = (classes.filterMap id).reverse := by
  have h := optionsLadderNew_aux classes []
  simpa [optionsLadderNew] using h

/-- Claim C8: `options_filter` splits a keyword mapping into two mappings
whose concatenation is a permutation of the original (no key duplicated or
dropped, every key keeping its original value), with the claimed keys
exactly those in the schema annotations, the unclaimed keys exactly those
outside them, and the two key sets disjoint. -/
theorem options_filter_partition {V : Type} (x : List (String × V))
    (anns : List String) :
    ((options_filter x anns).1 ++ (options_filter x anns).2).Perm x
  ∧ (∀ kv ∈ (options_filter x anns).1, anns.contains kv.1 = true)
  ∧ (∀ kv ∈ (options_filter x anns).2, anns.contains kv.1 = false)
  ∧ (∀ kv ∈ (options_filter x anns).1, ∀ kw ∈ (options_filter x anns).2,
      kv.1 ≠ kw.1) := by
  refine ⟨List.filter_append_perm _ x, ?_, ?_, ?_⟩
  · intro kv hkv
    exact (List.mem_filter.mp hkv).2
  · intro kv hkv
    have h2 := (List.mem_filter.mp hkv).2
    simpa using h2
  · intro kv hkv kw hkw hEq
    have h1 := (List.mem_filter.mp hkv).2
    have h2 := (List.mem_filter.mp hkw).2
    rw [hEq] at h1
    simp at h1 h2
    exact h2 h1

/-- Keyword arguments of a `NewCommand` construction, as routed through
`options_filter` against the annotations of `DocumentPart.Options`. -/
def c8Kwargs : List (String × String) := [("nargs", "1"), ("name", "greet")]

/-- The annotation keys `DocumentPart.Options` contributes beyond the base
schema. -/
def c8Anns : List String := ["name", "prolog", "epilog", "delimiter"]

/-- Concrete instance of the partition contract. -/
theorem options_filter_partition_example :
    ((options_filter c8Kwargs c8Anns).1 ++ (options_filter c8Kwargs c8Anns).2).Perm
      c8Kwargs
  ∧ c8Anns.contains (("name", "greet") : String × String).1 = true := by
  refine ⟨(options_filter_partition c8Kwargs c8Anns).1, ?_⟩
  exact (options_filter_partition c8Kwargs c8Anns).2.1 (("name", "greet"))
    (by decide)

/-- Claim C9: looking a key up in an instance's merged layered configuration
returns the instance-level value when one is present, otherwise the value of
the most derived participating class whose layer defines the key (the scan
over the class list reversed into most-derived-first order); a key defined
nowhere yields a `KeyError` when read — the chain construction itself is a
total function and cannot fail. -/
theorem ladder_lookup_semantics {V : Type}
    (classes : List (Option (List (String × V))))
    (instLayer : List (String × V)) (k : String) :
    chainLookup (optionsLadderNew classes) k
      = (classes.reverse.filterMap id).findSome? (fun layer => layer.lookup k)
  ∧ (∀ v, instLayer.lookup k = some v →
      chainLookup (instLayer :: optionsLadderNew classes) k = some v)
  ∧ (instLayer.lookup k = none →
      chainLookup (instLayer :: optionsLadderNew classes) k
        = chainLookup (optionsLadderNew classes) k)
  ∧ (chainLookup (instLayer :: optionsLadderNew classes) k = none →
      chainGet (instLayer :: optionsLadderNew classes) k
        = Except.error ("KeyError: " ++ k)) := by
  refine ⟨?_, ?_, ?_, ?_⟩
  · rw [optionsLadderNew_eq, chainLookup_eq_findSome, List.filterMap_reverse]
  · intro v hv
    simp [chainLookup, hv]
  · intro hv
    simp [chainLookup, hv]
  · intro hnone
    simp [chainGet, hnone]

/-- A concrete ladder: the base class layer, a non-participating class, and
a derived class layer overriding the delimiter. -/
def c9Classes : List (Option (List (String × String))) :=
  [some [("delimiter", "\n"), ("prolog", "")], none,
   some [("delimiter", " ")]]

/-- A concrete instance-level layer supplying only the name. -/
def c9Inst : List (String × String) := [("name", "document")]

/-- Concrete instance of the lookup semantics: the instance override wins
for `name`, the lookup falls through for `delimiter`, and an undefined key
is a `KeyError` at read time. -/
theorem ladder_lookup_semantics_example :
    chainLookup (c9Inst :: optionsLadderNew c9Classes) ("name")
      = some ("document")
  ∧ chainLookup (c9Inst :: optionsLadderNew c9Classes) ("delimiter")
      = chainLookup (optionsLadderNew c9Classes) ("delimiter")
  ∧ chainGet (c9Inst :: optionsLadderNew c9Classes) ("missing")
      = Except.error ("KeyError: missing") := by
  refine ⟨?_, ?_, ?_⟩
  · exact (ladder_lookup_semantics c9Classes c9Inst ("name")).2.1 ("document") rfl
  · exact (ladder_lookup_semantics c9Classes c9Inst ("delimiter")).2.2.1 rfl
  · exact (ladder_lookup_semantics c9Classes c9Inst ("missing")).2.2.2 rfl

/-- Claim C10: an `Environment` constructed with `ops` or `args` equal to
the empty string produces exactly the prolog of passing `None` — the source
tests truthiness, not presence — and the bracketed `[ops]` segment appears
in the prolog exactly when `ops` is a supplied non-empty string, the braced
`{args}` segment exactly when `args` is a supplied non-empty string. -/
theorem environment_empty_string_option (name : String)
    (ops args : Option String) :
    envProlog name (some ("")) args = envProlog name none args
  ∧ envProlog name ops (some ("")) = envProlog name ops none
  ∧ (pyTruthyStr ops = true ↔ ∃ s, ops = some s ∧ s ≠ "")
  ∧ (pyTruthyStr args = true ↔ ∃ s, args = some s ∧ s ≠ "")
  ∧ (pyTruthyStr ops = false → envProlog name ops args = envProlog name none args)
  ∧ (pyTruthyStr args = false → envProlog name ops args = envProlog name ops none)
  ∧ (pyTruthyStr ops = true →
      envProlog name ops args
        = "\\begin\x7b" ++ name ++ "\x7d" ++ ("[" ++ ops.getD "" ++ "]")
            ++ argsSegment args ++ "%\n")
  ∧ (pyTruthyStr args = true →
      envProlog name ops args
        = "\\begin\x7b" ++ name ++ "\x7d" ++ opsSegment ops
            ++ ("\x7b" ++ args.getD "" ++ "\x7d") ++ "%\n") := by
  refine ⟨rfl, rfl, ?_, ?_, ?_, ?_, ?_, ?_⟩
  · cases ops with
    | none => simp [pyTruthyStr]
    | some s => simp [pyTruthyStr]
  · cases args with
    | none => simp [pyTruthyStr]
    | some s => simp [pyTruthyStr]
  · intro hf
    have ho : opsSegment ops = "" := by
      unfold opsSegment
      rw [hf]
      simp
    have hn : opsSegment none = "" := rfl
    simp [envProlog, ho, hn]
  · intro hf
    have ha : argsSegment args = "" := by
      unfold argsSegment
      rw [hf]
      simp
    have hn : argsSegment none = "" := rfl
    simp [envProlog, ha, hn]
  · intro ht
    simp only [envProlog, opsSegment, ht, if_pos]
  · intro ht
    simp only [envProlog, argsSegment, ht, if_pos]

/-- Concrete instance of the truthiness contract: at
`Environment("tabular", ops="t", args="cc")` both segments are emitted and
the prolog evaluates to the full literal string, and at
`Environment("quote", ops="")` the empty string behaves like `None`. -/
theorem environment_empty_string_option_example :
    pyTruthyStr (some ("t")) = true
  ∧ pyTruthyStr (some ("cc")) = true
  ∧ envProlog ("tabular") (some ("t")) (some ("cc"))
      = "\\begin\x7btabular\x7d[t]\x7bcc\x7d%\n"
  ∧ envProlog ("quote") (some ("")) none = envProlog ("quote") none none := by
  refine ⟨by decide, by decide, ?_, ?_⟩
  · exact (environment_empty_string_option ("tabular") (some ("t"))
      (some ("cc"))).2.2.2.2.2.2.2 (by decide)
  · exact (environment_empty_string_option ("quote") (some ("")) none).1
